import Mathlib

/-!
Verification of the drug-image recognition engine of MUS_Project.

This development shallowly embeds the recognition pipeline of
`image_recognition.py` (class `DrugImageRecognizer`) and the
progress/cancellation bookkeeping of `app.py`.

Modelling conventions:
* Python floats are modelled by `ℚ` for the fusion-scoring arithmetic
  (all score arithmetic in `recognize_drug` is exact on the rationals),
  and by `ℝ` where the source uses a square root (L2 normalisation).
* Opaque OpenCV / numpy numeric routines (`cv2.compareHist`,
  `np.exp`, `cv2.calcHist`, image decoding) are treated as oracles: their
  output values are inputs of the model.  Everything the Python source
  computes *from* those values is embedded faithfully.
* ORB descriptor matching (`cv2.BFMatcher` with `NORM_HAMMING`,
  `knnMatch(k=2)`) is embedded in full: descriptors are bit vectors,
  distances are Hamming distances, and the ratio test of
  `calculate_orb_similarity` is translated literally.
-/

namespace MUSRec

/-! ## Small Python-semantics helpers -/

/--
Python truthiness of an optional string argument (`if filter_shape:` in
`image_recognition.py`): `None` and the empty string are falsy.
-/
def pyTruthy : Option String → Bool
  | none => false
  | some s => decide (s ≠ "")

/--
Python slicing `results[:top_k]` for an arbitrary integer `top_k`
(`image_recognition.py` line 994): a nonnegative bound takes a prefix, a
negative bound drops the last `|top_k|` elements.
-/
def pySlice (k : Int) (l : List α) : List α :=
  if 0 ≤ k then l.take k.toNat else l.take (l.length - (-k).toNat)

/-- Test `leadMatch needle hay`: `needle` is an initial segment of `hay`. -/
def leadMatch : List Char → List Char → Bool
  | [], _ => true
  | _ :: _, [] => false
  | a :: as, b :: bs => a == b && leadMatch as bs

/-- Test `charsContains hay needle`: `needle` occurs contiguously inside `hay`. -/
def charsContains (needle : List Char) : List Char → Bool
  | [] => leadMatch needle []
  | c :: t => leadMatch needle (c :: t) || charsContains needle t

/--
Python substring containment `needle in hay` on strings, used by the color
filter (`filter_color not in drug_color`) and the auto-color prefilter.
-/
def strContains (hay needle : String) : Bool :=
  charsContains needle.data hay.data

/-! ## Data model -/

/--
One row of the metadata join loaded by `_load_image_metadata`
(`image_recognition.py` lines 169-190).  A database `NULL` label is
modelled by the empty string (both are falsy in the Python checks).
-/
structure DrugRecord where
  drug_id : Nat
  chinese_name : String
  english_name : String
  license_number : String
  shape : String
  color : String
  special_dosage_form : String
  image_filename : String
deriving DecidableEq, Repr

/--
Per-candidate numeric inputs of the fusion scoring in `recognize_drug`:
the shape statistics stored in the feature cache
(`extract_shape_features`), the histogram correlation computed by
`cv2.compareHist` (oracle), and the value `np.exp(-chi_square/2)`
computed by `calculate_lbp_similarity` before clamping (oracle).
-/
structure CandFeats where
  circularity : ℚ
  aspectRatioVal : ℚ
  colorCorrel : ℚ
  lbpExp : ℚ
deriving DecidableEq, Repr

/--
One database candidate as seen by the scan loop of `recognize_drug`:
its metadata record, its cached features (`none` models a missing image
file or a failed decode, line 877-879: the candidate is skipped), and its
lazily computed ORB descriptors (`_get_or_compute_orb`; `none` models a
missing file, decode failure or an image with no descriptors).
-/
structure Candidate where
  record : DrugRecord
  feats : Option CandFeats
  orbDesc : Option (List (List Bool))
deriving DecidableEq, Repr

/--
The query-side data extracted from the uploaded image in
`recognize_drug` lines 824-827 and 849: shape statistics, ORB
descriptors of the uploaded image, and the label list returned by the
color-inference heuristic `_infer_color_labels` (oracle over the image).
-/
structure QueryFeatures where
  circularity : ℚ
  aspectRatioVal : ℚ
  orb : Option (List (List Bool))
  autoColors : List String
deriving DecidableEq, Repr

/-- One entry of the list returned by `recognize_drug` (lines 957-969). -/
structure ResultEntry where
  record : DrugRecord
  similarity : ℚ
deriving DecidableEq, Repr

/--
The observable outcome of one `recognize_drug` call: the returned list,
the sequence of `(done, total)` arguments passed to the `on_progress`
hook (in call order, when the hook is supplied), the final value of the
loop counter (`idx - 1` of `enumerate(filtered_records, start=1)`), and
whether the scan loop was stopped by the cancellation hook.
-/
structure RunResult where
  results : List ResultEntry
  reports : List (Nat × Nat)
  processed : Nat
  cancelled : Bool
deriving DecidableEq, Repr

/-! ## Filters (`_match_filters`, lines 264-295, and the prefilter of
`recognize_drug`, lines 836-858) -/

/--
Function `_match_filters` (lines 264-295): the shape filter is an exact string
match (and requires a nonempty stored label), the color filter is a
substring match.  Falsy filter argumens are skipped.
-/
def _match_filters (record : DrugRecord)
    (filter_shape filter_color : Option String) : Bool :=
  if pyTruthy filter_shape &&
      (decide (record.shape = "") ||
        !(decide (record.shape = filter_shape.getD ""))) then
    false
  else if pyTruthy filter_color &&
      (decide (record.color = "") ||
        !(strContains record.color (filter_color.getD ""))) then
    false
  else
    true

/--
The automatic color prefilter of `recognize_drug` lines 851-855: keep a
record when any inferred label occurs inside its stored color label.
-/
def autoColorMatch (autoColors : List String) (record : DrugRecord) : Bool :=
  autoColors.any (fun lbl => strContains record.color lbl)

/--
The candidate prefilter of `recognize_drug` lines 836-858: with an
explicit (truthy) shape or color filter, restrict by `_match_filters`;
otherwise restrict by the inferred color labels when that list is
nonempty, else keep everything.
-/
def filteredCandidates (q : QueryFeatures) (records : List Candidate)
    (filter_shape filter_color : Option String) : List Candidate :=
  if pyTruthy filter_shape || pyTruthy filter_color then
    records.filter (fun c => _match_filters c.record filter_shape filter_color)
  else if q.autoColors.isEmpty then
    records
  else
    records.filter (fun c => autoColorMatch q.autoColors c.record)

/-! ## Pairwise similarity computations -/

/--
Function `calculate_similarity` (lines 669-684): clamp the histogram correlation
(computed by the `cv2.compareHist` oracle) below at 0.
-/
def calculate_similarity (correl : ℚ) : ℚ := max 0 correl

/--
Function `calculate_lbp_similarity` (lines 715-741): the chi-square distance and
`np.exp` are opaque; the function returns `max(0, min(1, exp(-chi/2)))`.
-/
def calculate_lbp_similarity (lbpExp : ℚ) : ℚ := max 0 (min 1 lbpExp)

/-- Hamming distance between two binary ORB descriptors (`NORM_HAMMING`). -/
def hamming (a b : List Bool) : Nat :=
  (List.zipWith (fun x y => x != y) a b).count true

/-- Insertion into a weakly increasing list of naturals. -/
def insertNat (x : Nat) : List Nat → List Nat
  | [] => [x]
  | y :: ys => if x ≤ y then x :: y :: ys else y :: insertNat x ys

/-- Insertion sort, ascending, on naturals. -/
def sortNat (l : List Nat) : List Nat := l.foldr insertNat []

/--
The call `matcher.knnMatch(descriptors1, descriptors2, k=2)` restricted to one
query descriptor: the two smallest Hamming distances from `q` to the
candidate descriptor set (fewer when the set has fewer than 2 elements).
-/
def knn2 (q : List Bool) (train : List (List Bool)) : List Nat :=
  (sortNat (train.map (hamming q))).take 2

/--
The ratio test of `calculate_orb_similarity` lines 701-707: a pair with
fewer than two matches is skipped; otherwise accept when
`m.distance < 0.75 * n.distance`.
-/
def ratioTestPass (pair : List Nat) : Bool :=
  match pair with
  | m :: n :: _ => decide ((m : ℚ) < 3 / 4 * (n : ℚ))
  | _ => false

/--
Function `calculate_orb_similarity` (lines 686-713): count of ratio-test matches
divided by `min(len(descriptors1), len(descriptors2))`; 0 when either
side is `None` or the minimum is 0.
-/
def calculate_orb_similarity (d1 d2 : Option (List (List Bool))) : ℚ :=
  match d1, d2 with
  | some ds1, some ds2 =>
    let goodMatches := (ds1.map (fun q => knn2 q ds2)).countP ratioTestPass
    let maxPossible := min ds1.length ds2.length
    if maxPossible = 0 then 0 else (goodMatches : ℚ) / (maxPossible : ℚ)
  | _, _ => 0

/-! ## Fusion scoring (`recognize_drug` lines 884-951) -/

/--
The per-candidate fused score computed inside the scan loop of
`recognize_drug` (lines 884-951), translated line by line: color
similarity, circularity / aspect-ratio sub-similarities, the 0.7/0.3
shape combination, LBP similarity, the gated ORB similarity
(only when the query has descriptors and color similarity is ≥ 0.3),
the two penalty ladders, and the weighted product.
-/
def scoreCandidate (q : QueryFeatures) (f : CandFeats)
    (dbOrb : Option (List (List Bool))) : ℚ :=
  let color_similarity := calculate_similarity f.colorCorrel
  let circularity_sim := max 0 (1 - |q.circularity - f.circularity|)
  let aspect_ratio_sim :=
    max 0 (min 1 (1 - |q.aspectRatioVal - f.aspectRatioVal| / 2))
  let shape_similarity := 7 / 10 * circularity_sim + 3 / 10 * aspect_ratio_sim
  let lbp_similarity := calculate_lbp_similarity f.lbpExp
  let orb_similarity :=
    if q.orb.isSome && decide (3 / 10 ≤ color_similarity) then
      calculate_orb_similarity q.orb dbOrb
    else 0
  let color_penalty : ℚ :=
    if color_similarity < 35 / 100 then 3 / 10
    else if color_similarity < 1 / 2 then 6 / 10
    else 1
  let shape_penalty : ℚ :=
    if shape_similarity < 3 / 10 then 1 / 2
    else if shape_similarity < 2 / 5 then 7 / 10
    else 1
  (4 / 10 * color_similarity + 3 / 10 * shape_similarity
      + 2 / 10 * lbp_similarity + 1 / 10 * orb_similarity)
    * color_penalty * shape_penalty

/--
The effect of one scan iteration on the result list: `none` when the
candidate has no features (skipped, line 877-879) or its score is below
the 0.15 floor (line 953-955), otherwise the appended entry.
-/
def scoreEntry (q : QueryFeatures) (c : Candidate) : Option ResultEntry :=
  match c.feats with
  | none => none
  | some f =>
    if scoreCandidate q f c.orbDesc < 15 / 100 then none
    else some { record := c.record, similarity := scoreCandidate q f c.orbDesc }

/-! ## The scan loop (`recognize_drug` lines 873-979) -/

/-- Intermediate state of the scan loop over the filtered candidates. -/
structure ScanState where
  results : List ResultEntry
  reports : List (Nat × Nat)
  processed : Nat
  cancelled : Bool
deriving DecidableEq, Repr

/--
The scan loop of `recognize_drug` (lines 873-979).  `idx` is the 1-based
counter of `enumerate(filtered_records, start=1)`; the cancellation hook
is modelled as a function of the number of candidates processed so far
(`idx - 1`), consulted at the top of every iteration.  A candidate with
no features is skipped; a candidate scoring below 0.15 is skipped; an
appended candidate additionally emits the `on_progress (idx, total)`
report of line 975-979 (the two `continue` statements skip that report).
-/
def scanLoop (q : QueryFeatures) (cancel? : Option (Nat → Bool)) (total : Nat) :
    List Candidate → Nat → ScanState
  | [], idx => { results := [], reports := [], processed := idx - 1, cancelled := false }
  | c :: rest, idx =>
    if (match cancel? with | none => false | some f => f (idx - 1)) then
      { results := [], reports := [], processed := idx - 1, cancelled := true }
    else
      let st := scanLoop q cancel? total rest (idx + 1)
      match scoreEntry q c with
      | none => st
      | some r =>
        { st with results := r :: st.results, reports := (idx, total) :: st.reports }

/-! ## Stable descending sort (`results.sort(key=..., reverse=True)`) -/

/--
Stable descending insertion: skip over strictly larger scores, stop at
the first entry whose score is not larger (equal scores from earlier in
the input stay in front).  This is the unique stable descending
permutation produced by Python `list.sort(key=..., reverse=True)`.
-/
def insertDesc (x : ResultEntry) : List ResultEntry → List ResultEntry
  | [] => [x]
  | y :: ys =>
    if x.similarity < y.similarity then y :: insertDesc x ys
    else x :: y :: ys

/-- Stable descending sort by `similarity` (line 982). -/
def sortDesc (l : List ResultEntry) : List ResultEntry := l.foldr insertDesc []

/-! ## `recognize_drug` (lines 743-994) -/

/--
Method `recognize_drug`.  The uploaded image enters as `Option QueryFeatures`
(`none` models a failed decode in `preprocess_image`, line 818-821: the
call returns `[]` before any hook fires and before any candidate is
scored).  Then, following the source order: the empty-metadata early
return (line 832-833), the candidate prefilter, the empty-prefilter
early return (lines 860-862), the initial `on_progress(0, total)` report
(lines 867-871), the scan loop, the stable descending sort, the final
`on_progress(total, total)` report (lines 988-992, emitted even after a
cancellation break), and the Python slice `results[:top_k]`.
-/
def recognize_drug (query : Option QueryFeatures) (image_records : List Candidate)
    (top_k : Int) (filter_shape filter_color : Option String)
    (cancel? : Option (Nat → Bool)) : RunResult :=
  match query with
  | none => { results := [], reports := [], processed := 0, cancelled := false }
  | some q =>
    if image_records.isEmpty then
      { results := [], reports := [], processed := 0, cancelled := false }
    else
      let flt := filteredCandidates q image_records filter_shape filter_color
      if flt.isEmpty then
        { results := [], reports := [], processed := 0, cancelled := false }
      else
        let st := scanLoop q cancel? flt.length flt 1
        { results := pySlice top_k (sortDesc st.results),
          reports := (0, flt.length) :: st.reports ++ [(flt.length, flt.length)],
          processed := st.processed,
          cancelled := st.cancelled }

/--
The 1-based indices (within the scanned list) of the candidates that are
appended to the result list — exactly the iterations that emit an
`on_progress` report inside the loop.
-/
def appendedIdxs (q : QueryFeatures) : List Candidate → Nat → List Nat
  | [], _ => []
  | c :: rest, idx =>
    match scoreEntry q c with
    | none => appendedIdxs q rest (idx + 1)
    | some _ => idx :: appendedIdxs q rest (idx + 1)

/-! ## The API layer (`app.py`) -/

/-- Progress status strings of `app.py` (`running` / `done` / `canceled`). -/
inductive Status where
  | running
  | done
  | canceled
deriving DecidableEq, Repr

/-- One `PROGRESS[request_id]` entry (`app.py` lines 376-381). -/
structure ProgressInfo where
  doneCount : Nat
  total : Nat
  status : Status
deriving DecidableEq, Repr

/--
Per-request server state: the `PROGRESS` entry and the `CANCEL_FLAGS`
entry for one request id (`some b` = a `threading.Event` whose set-flag
is `b`; `none` = no entry).
-/
structure ReqState where
  prog : Option ProgressInfo
  flag : Option Bool
deriving DecidableEq, Repr

/-- The operations of `app.py` that touch one request id's state. -/
inductive ReqOp where
  /-- Request initialisation, `app.py` lines 374-381. -/
  | start
  /-- The `on_progress` closure, `app.py` lines 383-389. -/
  | progressCb (d t : Nat)
  /-- End of the recognize endpoint, `app.py` lines 403-408: write the
  terminal status from the cancellation event, pop the flag. -/
  | finish
  /-- The `/api/cancel` endpoint, `app.py` lines 502-525. -/
  | cancel
deriving DecidableEq, Repr

/-- One step of the per-request state machine, translated from `app.py`. -/
def reqStep (s : ReqState) : ReqOp → ReqState
  | .start => { prog := some ⟨0, 0, .running⟩, flag := some false }
  | .progressCb d t => { s with prog := some ⟨d, t, .running⟩ }
  | .finish =>
    match s.flag with
    | some ev =>
      { prog := s.prog.map fun p =>
          { p with status := if ev then .canceled else .done },
        flag := none }
    | none => { s with flag := none }
  | .cancel =>
    match s.flag with
    | none => { s with prog := some ⟨0, 0, .canceled⟩ }
    | some _ =>
      { prog := some ⟨((s.prog.map ProgressInfo.doneCount).getD 0),
                      ((s.prog.map ProgressInfo.total).getD 0), .canceled⟩,
        flag := some true }

/-- Apply a sequence of operations to a request state. -/
def runOps (s : ReqState) (ops : List ReqOp) : ReqState := ops.foldl reqStep s

/-- The status stored for a request, when a `PROGRESS` entry exists. -/
def statusOf (s : ReqState) : Option Status := s.prog.map ProgressInfo.status

/--
The terminal status written by the recognize endpoint (`app.py` line
403-405): `canceled` iff the cancellation event is set when the endpoint
reads it; with the event modelled as a monotone function of the number
of processed candidates, that is its value at the final count.
-/
def appStatus (cancel? : Option (Nat → Bool)) (run : RunResult) : Status :=
  if (match cancel? with | none => false | some f => f run.processed) then
    .canceled
  else .done

/-- The two failure shapes of the recognize endpoint (`app.py` 413-433). -/
inductive ApiResponse where
  /-- Successful recognition, data returned. -/
  | ok (data : List ResultEntry)
  /-- Empty result.  `withFilters = true` is the "no drug matches the
  filters" message; `withFilters = false` is the "cannot recognize,
  ensure the image is clear" message. -/
  | noMatch (withFilters : Bool)
deriving DecidableEq, Repr

/--
How the recognize endpoint surfaces the result list (`app.py` lines
413-433): an empty list becomes a failure message chosen by whether any
filter was supplied; a nonempty list is returned as data.
-/
def apiResponse (results : List ResultEntry)
    (filter_shape filter_color : Option String) : ApiResponse :=
  if results.isEmpty then
    .noMatch (pyTruthy filter_shape || pyTruthy filter_color)
  else
    .ok results

/-! ## Histogram extractors (`extract_color_histogram`,
`extract_lbp_features`) -/

/-- Sum of squares of a list of reals. -/
def sumSq (v : List ℝ) : ℝ := (v.map (fun x => x ^ 2)).sum

/--
The call `cv2.normalize(hist, hist)` with its default arguments
(`norm_type=NORM_L2`, `alpha=1`): divide every bin by the Euclidean norm
of the vector (`image_recognition.py` line 472).
-/
noncomputable def l2normalize (v : List ℝ) : List ℝ :=
  v.map (fun x => x / Real.sqrt (sumSq v))

/--
Function `extract_color_histogram` (lines 434-474) after the opaque
`cv2.calcHist` step: the raw flattened 18x8x8 bin counts enter as the
argument, and the function applies the default (L2) `cv2.normalize`.
-/
noncomputable def extract_color_histogram (rawHist : List ℝ) : List ℝ :=
  l2normalize rawHist

/-- Comparison bit of LBP (0 or 1): set when the neighbor is ≥ the center. -/
def lbpBit (c n : Nat) : Nat := if c ≤ n then 1 else 0

/--
The 8-bit LBP code of interior pixel `(i, j)` (0-based over the 126x126
interior) of a 128x128 grayscale frame `g`, following the neighbor
offsets and bit order of `extract_lbp_features` lines 589-606: center is
`g (i+1) (j+1)`, bit `b` compares the `b`-th clockwise neighbor starting
at the upper-left.
-/
def lbpCode (g : Nat → Nat → Nat) (i j : Nat) : Nat :=
  lbpBit (g (i + 1) (j + 1)) (g i j)
    + 2 * lbpBit (g (i + 1) (j + 1)) (g i (j + 1))
    + 4 * lbpBit (g (i + 1) (j + 1)) (g i (j + 2))
    + 8 * lbpBit (g (i + 1) (j + 1)) (g (i + 1) (j + 2))
    + 16 * lbpBit (g (i + 1) (j + 1)) (g (i + 2) (j + 2))
    + 32 * lbpBit (g (i + 1) (j + 1)) (g (i + 2) (j + 1))
    + 64 * lbpBit (g (i + 1) (j + 1)) (g (i + 2) j)
    + 128 * lbpBit (g (i + 1) (j + 1)) (g (i + 1) j)

/--
One bin of `np.histogram(codes.ravel(), bins=256, range=(0, 256))`:
the number of interior pixels whose LBP code equals `k`.
-/
def lbpCount (g : Nat → Nat → Nat) (k : Nat) : Nat :=
  ((Finset.range 126 ×ˢ Finset.range 126).filter
    (fun p => lbpCode g p.1 p.2 = k)).card

/--
Function `extract_lbp_features` (lines 560-619) on a decoded 128x128 grayscale
frame `g` (the resize, blur and grayscale conversion are opaque image
operations; `g` is their output): build the 256-bin code histogram and
divide by its sum when that sum is positive.
-/
def extract_lbp_features (g : Nat → Nat → Nat) (k : Nat) : ℚ :=
  let s : ℚ := ∑ j ∈ Finset.range 256, (lbpCount g j : ℚ)
  if 0 < s then (lbpCount g k : ℚ) / s else (lbpCount g k : ℚ)

/-! ## Specification-side formulas (claim C1, spec §4.7) -/

/-- Spec: `circularitySim = max(0, 1 − |circularity difference|)`. -/
def specCircularitySim (qc dc : ℚ) : ℚ := max 0 (1 - |qc - dc|)

/-- Spec: `aspectRatioSim = clamp(1 − |aspect-ratio difference|/2, 0, 1)`. -/
def specAspectRatioSim (qa da : ℚ) : ℚ := max 0 (min 1 (1 - |qa - da| / 2))

/-- Spec: `shapeSim = 0.7·circularitySim + 0.3·aspectRatioSim`. -/
def specShapeSim (circularitySim aspectRatioSim : ℚ) : ℚ :=
  7 / 10 * circularitySim + 3 / 10 * aspectRatioSim

/--
Spec: final score = `(0.40·color + 0.30·shape + 0.20·texture +
0.10·imprint)` times the color penalty (0.3 below 0.35, 0.6 below 0.5,
else 1) times the shape penalty (0.5 below 0.3, 0.7 below 0.4, else 1).
-/
def specFinalScore (colorSim shapeSim textureSim imprintSim : ℚ) : ℚ :=
  (4 / 10 * colorSim + 3 / 10 * shapeSim
      + 2 / 10 * textureSim + 1 / 10 * imprintSim)
    * (if colorSim < 35 / 100 then 3 / 10
       else if colorSim < 1 / 2 then 6 / 10 else 1)
    * (if shapeSim < 3 / 10 then 1 / 2
       else if shapeSim < 2 / 5 then 7 / 10 else 1)

/--
The cancellation scenario of the specification: the `is_cancelled` hook
first returns true once `N` candidates have been processed (the hook is
called with the processed count at the top of each iteration).
-/
def cancelAfter (N : Nat) : Nat → Bool := fun processed => decide (N ≤ processed)

/-! ## Concrete evaluation scenarios

Three simple candidates against a query with no ORB descriptors and no
inferred colors.  With the query shape statistics `(1, 1)`:
`cand1` scores `0.4·(1/2) + 0.3·1 = 1/2`, `cand2` scores `0` (skipped by
the 0.15 floor, so it emits no progress report), `cand3` scores
`0.4·1 + 0.3·1 + 0.2·(1/2) = 4/5`. -/

def rec1 : DrugRecord := ⟨1, "A1", "DrugA", "L1", "round", "white", "", "1.jpg"⟩

def rec2 : DrugRecord := ⟨2, "A2", "DrugB", "L2", "oval", "yellow", "", "2.jpg"⟩

def rec3 : DrugRecord := ⟨3, "A3", "DrugC", "L3", "round", "offwhite", "", "3.jpg"⟩

def q1 : QueryFeatures := ⟨1, 1, none, []⟩

def cand1 : Candidate := ⟨rec1, some ⟨1, 1, 1 / 2, 0⟩, none⟩

def cand2 : Candidate := ⟨rec2, some ⟨0, 3, 0, 0⟩, none⟩

def cand3 : Candidate := ⟨rec3, some ⟨1, 1, 1, 1 / 2⟩, none⟩

/--
The ORB-overflow scenario: the query image yields 3 ORB descriptors,
each at Hamming distance 1 from the candidate descriptor `0000` and
distance 3 from `1111`, so all 3 query descriptors pass the ratio test
(`1 < 0.75·3`), while the candidate has only 2 descriptors:
`good_matches = 3 > min(3, 2) = 2`.
-/
def q2 : QueryFeatures :=
  ⟨1, 1, some [[true, false, false, false], [true, false, false, false],
    [true, false, false, false]], []⟩

def rec4 : DrugRecord := ⟨4, "A4", "DrugD", "L4", "round", "white", "", "4.jpg"⟩

def candO : Candidate := ⟨rec4, some ⟨1, 1, 1, 1⟩,
  some [[false, false, false, false], [true, true, true, true]]⟩

/--
A raw color histogram with two occupied bins of the 18·8·8 = 1152-bin
grid (a frame whose 12600 foreground pixels fall into two HSV bins, with
counts 5400 and 7200): its Euclidean norm is 9000, so after the default
(L2) `cv2.normalize` the entries sum to `12600/9000 = 7/5`, not 1.
-/
def rawHistPair : List ℝ := 5400 :: 7200 :: List.replicate 1150 0

/-! ## Lemmas about the stable descending sort -/

theorem insertDesc_perm (x : ResultEntry) :
    ∀ l : List ResultEntry, (insertDesc x l).Perm (x :: l)
  | [] => List.Perm.refl _
  | y :: ys => by
    unfold insertDesc
    split
    · exact ((insertDesc_perm x ys).cons y).trans (List.Perm.swap x y ys)
    · exact List.Perm.refl _

theorem sortDesc_perm : ∀ l : List ResultEntry, (sortDesc l).Perm l
  | [] => List.Perm.refl _
  | x :: xs => by
    have h1 : sortDesc (x :: xs) = insertDesc x (sortDesc xs) := rfl
    rw [h1]
    exact (insertDesc_perm x (sortDesc xs)).trans ((sortDesc_perm xs).cons x)

theorem insertDesc_sorted {x : ResultEntry} :
    ∀ {l : List ResultEntry},
      l.Pairwise (fun a b => b.similarity ≤ a.similarity) →
      (insertDesc x l).Pairwise (fun a b => b.similarity ≤ a.similarity)
  | [], _ => by simp [insertDesc]
  | y :: ys, h => by
    obtain ⟨h1, h2⟩ := List.pairwise_cons.mp h
    unfold insertDesc
    split
    · rename_i hlt
      refine List.pairwise_cons.mpr ⟨?_, insertDesc_sorted h2⟩
      intro z hz
      have hz2 : z ∈ x :: ys := (insertDesc_perm x ys).mem_iff.mp hz
      rcases List.mem_cons.mp hz2 with rfl | hz3
      · exact le_of_lt hlt
      · exact h1 z hz3
    · rename_i hge
      refine List.pairwise_cons.mpr ⟨?_, h⟩
      intro z hz
      rcases List.mem_cons.mp hz with rfl | hz
      · exact le_of_not_lt hge
      · exact le_trans (h1 z hz) (le_of_not_lt hge)

theorem sortDesc_sorted :
    ∀ l : List ResultEntry,
      (sortDesc l).Pairwise (fun a b => b.similarity ≤ a.similarity)
  | [] => by simp [sortDesc]
  | x :: xs => by
    have h1 : sortDesc (x :: xs) = insertDesc x (sortDesc xs) := rfl
    rw [h1]
    exact insertDesc_sorted (sortDesc_sorted xs)

theorem filter_insertDesc (v : ℚ) (x : ResultEntry) :
    ∀ l : List ResultEntry,
      (insertDesc x l).filter (fun r => decide (r.similarity = v)) =
        if x.similarity = v then
          x :: l.filter (fun r => decide (r.similarity = v))
        else l.filter (fun r => decide (r.similarity = v))
  | [] => by
    by_cases hx : x.similarity = v <;> simp [insertDesc, List.filter, hx]
  | y :: ys => by
    unfold insertDesc
    split
    · rename_i hlt
      by_cases hx : x.similarity = v
      · have hy : ¬ y.similarity = v := by
          intro hy; rw [hx] at hlt; rw [hy] at hlt; exact lt_irrefl v hlt
        simp [List.filter_cons, hx, hy, filter_insertDesc v x ys]
      · by_cases hy : y.similarity = v <;>
          simp [List.filter_cons, hx, hy, filter_insertDesc v x ys]
    · by_cases hx : x.similarity = v <;> simp [List.filter_cons, hx]

theorem filter_sortDesc (v : ℚ) :
    ∀ l : List ResultEntry,
      (sortDesc l).filter (fun r => decide (r.similarity = v)) =
        l.filter (fun r => decide (r.similarity = v))
  | [] => rfl
  | x :: xs => by
    have h1 : sortDesc (x :: xs) = insertDesc x (sortDesc xs) := rfl
    rw [h1, filter_insertDesc]
    by_cases hx : x.similarity = v <;>
      simp [hx, List.filter_cons, filter_sortDesc v xs]

/-! ## Lemmas about the scan loop -/

theorem scoreEntry_some {q : QueryFeatures} {c : Candidate} {r : ResultEntry}
    (h : scoreEntry q c = some r) :
    ∃ f, c.feats = some f ∧ r.record = c.record ∧
      r.similarity = scoreCandidate q f c.orbDesc ∧
      ¬ scoreCandidate q f c.orbDesc < 15 / 100 := by
  cases hf : c.feats with
  | none => simp [scoreEntry, hf] at h
  | some f =>
    simp only [scoreEntry, hf] at h
    by_cases hs : scoreCandidate q f c.orbDesc < 15 / 100
    · rw [if_pos hs] at h; exact absurd h (by simp)
    · rw [if_neg hs] at h
      have he := Option.some_inj.mp h
      refine ⟨f, rfl, ?_, ?_, hs⟩ <;> rw [← he]

theorem scanLoop_results_none (q : QueryFeatures) (t : Nat) :
    ∀ (l : List Candidate) (idx : Nat),
      (scanLoop q none t l idx).results = l.filterMap (scoreEntry q)
  | [], idx => by simp [scanLoop]
  | c :: rest, idx => by
    simp only [scanLoop, List.filterMap_cons]
    cases h : scoreEntry q c <;>
      simp [h, scanLoop_results_none q t rest (idx + 1)]

theorem scanLoop_reports_none (q : QueryFeatures) (t : Nat) :
    ∀ (l : List Candidate) (idx : Nat),
      (scanLoop q none t l idx).reports =
        (appendedIdxs q l idx).map (fun i => (i, t))
  | [], idx => by simp [scanLoop, appendedIdxs]
  | c :: rest, idx => by
    simp only [scanLoop, appendedIdxs]
    cases h : scoreEntry q c <;>
      simp [h, scanLoop_reports_none q t rest (idx + 1)]

theorem scanLoop_mem_results {q : QueryFeatures} {c? : Option (Nat → Bool)}
    {t : Nat} :
    ∀ {l : List Candidate} {idx : Nat} {r : ResultEntry},
      r ∈ (scanLoop q c? t l idx).results → ∃ c ∈ l, scoreEntry q c = some r
  | [], idx, r => by simp [scanLoop]
  | c :: rest, idx, r => by
    intro hr
    unfold scanLoop at hr
    split at hr
    · exact absurd hr (by simp)
    · revert hr
      cases h : scoreEntry q c with
      | none =>
        intro hr
        obtain ⟨c', hc', he⟩ := scanLoop_mem_results (by simpa using hr)
        exact ⟨c', List.mem_cons_of_mem c hc', he⟩
      | some r' =>
        intro hr
        simp only at hr
        rcases List.mem_cons.mp hr with rfl | hr
        · exact ⟨c, List.mem_cons_self c rest, h⟩
        · obtain ⟨c', hc', he⟩ := scanLoop_mem_results hr
          exact ⟨c', List.mem_cons_of_mem c hc', he⟩

/-! ## Lemmas about slicing and the pipeline -/

theorem mem_pySlice {k : Int} {l : List α} {x : α} (h : x ∈ pySlice k l) :
    x ∈ l := by
  unfold pySlice at h
  split at h <;> exact (List.take_sublist _ _).subset h

theorem pySlice_sublist (k : Int) (l : List α) : (pySlice k l).Sublist l := by
  unfold pySlice
  split <;> exact List.take_sublist _ _

theorem mem_filterMap_take {f : α → Option β} {l : List α} {n : Nat} {b : β}
    (h : b ∈ (l.take n).filterMap f) : b ∈ l.filterMap f := by
  have hsplit : l.filterMap f =
      (l.take n).filterMap f ++ (l.drop n).filterMap f := by
    rw [← List.filterMap_append, List.take_append_drop]
  rw [hsplit]
  exact List.mem_append_left _ h

theorem filteredCandidates_nil (q : QueryFeatures)
    (fs fc : Option String) : filteredCandidates q [] fs fc = [] := by
  unfold filteredCandidates
  split
  · rfl
  · split <;> rfl

theorem recognize_some_eq (q : QueryFeatures) (cands : List Candidate)
    (tk : Int) (fs fc : Option String) (c? : Option (Nat → Bool)) :
    recognize_drug (some q) cands tk fs fc c? =
      if (filteredCandidates q cands fs fc).isEmpty then
        { results := [], reports := [], processed := 0, cancelled := false }
      else
        { results := pySlice tk (sortDesc
            (scanLoop q c? (filteredCandidates q cands fs fc).length
              (filteredCandidates q cands fs fc) 1).results),
          reports := (0, (filteredCandidates q cands fs fc).length) ::
            (scanLoop q c? (filteredCandidates q cands fs fc).length
              (filteredCandidates q cands fs fc) 1).reports ++
            [((filteredCandidates q cands fs fc).length,
              (filteredCandidates q cands fs fc).length)],
          processed := (scanLoop q c? (filteredCandidates q cands fs fc).length
            (filteredCandidates q cands fs fc) 1).processed,
          cancelled := (scanLoop q c? (filteredCandidates q cands fs fc).length
            (filteredCandidates q cands fs fc) 1).cancelled } := by
  by_cases hc : cands.isEmpty
  · have hnil : cands = [] := List.isEmpty_iff.mp hc
    subst hnil
    simp [recognize_drug, filteredCandidates_nil]
  · simp [recognize_drug, hc]

theorem mem_recognize_scan {q : QueryFeatures} {cands : List Candidate}
    {tk : Int} {fs fc : Option String} {c? : Option (Nat → Bool)}
    {r : ResultEntry}
    (h : r ∈ (recognize_drug (some q) cands tk fs fc c?).results) :
    ∃ c ∈ filteredCandidates q cands fs fc, scoreEntry q c = some r := by
  rw [recognize_some_eq] at h
  split at h
  · exact absurd h (by simp)
  · exact scanLoop_mem_results ((sortDesc_perm _).mem_iff.mp (mem_pySlice h))

/-! ## The scan loop under the cancel-after-N hook -/

theorem scanLoop_cancelAfter (q : QueryFeatures) (t N : Nat) :
    ∀ (l : List Candidate) (idx : Nat), 1 ≤ idx → idx ≤ N + 1 →
      scanLoop q (some (cancelAfter N)) t l idx =
        if l.length ≤ N + 1 - idx then scanLoop q none t l idx
        else { scanLoop q none t (l.take (N + 1 - idx)) idx with
               processed := N, cancelled := true }
  | [], idx, h1, h2 => by simp [scanLoop]
  | c :: rest, idx, h1, h2 => by
    by_cases hN : N + 1 ≤ idx
    · have hidx : idx = N + 1 := le_antisymm h2 hN
      subst hidx
      have h0 : N + 1 - (N + 1) = 0 := by omega
      rw [h0]
      rw [if_neg (by simp)]
      simp [scanLoop, cancelAfter, List.take]
    · have hlt : idx ≤ N := by omega
      have hc : cancelAfter N (idx - 1) = false := by
        simp only [cancelAfter, decide_eq_false_iff_not]
        omega
      have IH := scanLoop_cancelAfter q t N rest (idx + 1) (by omega) (by omega)
      have hk : N + 1 - idx = (N - idx) + 1 := by omega
      have hk2 : N + 1 - (idx + 1) = N - idx := by omega
      rw [hk2] at IH
      by_cases hr : rest.length ≤ N - idx
      · rw [if_pos (by simp [hk]; omega)]
        rw [if_pos hr] at IH
        cases hse : scoreEntry q c <;> simp [scanLoop, hc, IH, hse]
      · rw [if_neg (by simp [hk]; omega)]
        rw [if_neg hr] at IH
        rw [hk, List.take_succ_cons]
        cases hse : scoreEntry q c <;> simp [scanLoop, hc, IH, hse]

/-! ## Lemmas for the histogram normalisations -/

theorem sum_map_div (c : ℝ) :
    ∀ v : List ℝ, (v.map (fun x => x / c)).sum = v.sum / c
  | [] => by simp
  | x :: xs => by simp [sum_map_div c xs, add_div]

theorem sumSq_map_div (c : ℝ) :
    ∀ v : List ℝ, sumSq (v.map (fun x => x / c)) = sumSq v / c ^ 2
  | [] => by simp [sumSq]
  | x :: xs => by
    have IH := sumSq_map_div c xs
    unfold sumSq at *
    simp only [List.map_cons, List.sum_cons] at *
    rw [IH, div_pow, add_div]

theorem sumSq_nonneg (v : List ℝ) : 0 ≤ sumSq v := by
  unfold sumSq
  apply List.sum_nonneg
  intro x hx
  obtain ⟨y, -, rfl⟩ := List.mem_map.mp hx
  exact sq_nonneg y

theorem sumSq_pos {v : List ℝ} (h : ∃ x ∈ v, x ≠ 0) : 0 < sumSq v := by
  obtain ⟨x, hx, hx0⟩ := h
  have h1 : 0 < x ^ 2 := pow_two_pos_of_ne_zero hx0
  have h2 : x ^ 2 ≤ sumSq v := by
    apply List.single_le_sum
    · intro y hy
      obtain ⟨z, -, rfl⟩ := List.mem_map.mp hy
      exact sq_nonneg z
    · exact List.mem_map_of_mem (fun x => x ^ 2) hx
  linarith

theorem lbpBit_le_one (c n : Nat) : lbpBit c n ≤ 1 := by
  unfold lbpBit
  split <;> omega

theorem lbpCode_lt_256 (g : Nat → Nat → Nat) (i j : Nat) :
    lbpCode g i j < 256 := by
  unfold lbpCode
  have h0 := lbpBit_le_one (g (i + 1) (j + 1)) (g i j)
  have h1 := lbpBit_le_one (g (i + 1) (j + 1)) (g i (j + 1))
  have h2 := lbpBit_le_one (g (i + 1) (j + 1)) (g i (j + 2))
  have h3 := lbpBit_le_one (g (i + 1) (j + 1)) (g (i + 1) (j + 2))
  have h4 := lbpBit_le_one (g (i + 1) (j + 1)) (g (i + 2) (j + 2))
  have h5 := lbpBit_le_one (g (i + 1) (j + 1)) (g (i + 2) (j + 1))
  have h6 := lbpBit_le_one (g (i + 1) (j + 1)) (g (i + 2) j)
  have h7 := lbpBit_le_one (g (i + 1) (j + 1)) (g (i + 1) j)
  omega

theorem lbpCount_total (g : Nat → Nat → Nat) :
    ∑ k ∈ Finset.range 256, lbpCount g k = 15876 := by
  have H : ∀ p ∈ Finset.range 126 ×ˢ Finset.range 126,
      lbpCode g p.1 p.2 ∈ Finset.range 256 := by
    intro p _
    exact Finset.mem_range.mpr (lbpCode_lt_256 g p.1 p.2)
  have hcard := Finset.card_eq_sum_card_fiberwise H
  unfold lbpCount
  rw [← hcard, Finset.card_product, Finset.card_range]

/-! ## Lemmas for the request state machine -/

theorem reqStep_cancel_status (s : ReqState) :
    statusOf (reqStep s .cancel) = some Status.canceled := by
  unfold reqStep statusOf
  cases s.flag <;> simp

theorem runOps_all_cancel :
    ∀ (ops : List ReqOp) (s : ReqState), (∀ op ∈ ops, op = ReqOp.cancel) →
      statusOf s = some Status.canceled →
      statusOf (runOps s ops) = some Status.canceled
  | [], s, _, hs => hs
  | op :: ops, s, hall, hs => by
    have hop : op = ReqOp.cancel := hall op (List.mem_cons_self op ops)
    subst hop
    have hstep := reqStep_cancel_status s
    exact runOps_all_cancel ops (reqStep s .cancel)
      (fun o ho => hall o (List.mem_cons_of_mem _ ho)) hstep

theorem filteredCandidates_subset {q : QueryFeatures} {cands : List Candidate}
    {fs fc : Option String} {c : Candidate}
    (h : c ∈ filteredCandidates q cands fs fc) : c ∈ cands := by
  unfold filteredCandidates at h
  split at h
  · exact (List.mem_filter.mp h).1
  · split at h
    · exact h
    · exact (List.mem_filter.mp h).1

/-! ## Claim C1 -/

/--
Claim C1: for every candidate scored by `recognize_drug`, the final
score equals the weighted sum `0.40·colorSim + 0.30·shapeSim +
0.20·textureSim + 0.10·imprintSim` multiplied by the color penalty (0.3
if colorSim < 0.35, else 0.6 if colorSim < 0.5, else 1.0) and the shape
penalty (0.5 if shapeSim < 0.3, else 0.7 if shapeSim < 0.4, else 1.0),
where `shapeSim = 0.7·circularitySim + 0.3·aspectRatioSim`,
`circularitySim = max(0, 1 − |circularity difference|)` and
`aspectRatioSim = clamp(1 − |aspect-ratio difference|/2, 0, 1)`.  The
first conjunct equates the code's per-candidate score with the
specification formula; the second shows every returned entry carries the
per-candidate score of one of the input candidates.
-/
theorem C1_fused_score_formula :
    (∀ (q : QueryFeatures) (f : CandFeats) (dbOrb : Option (List (List Bool))),
      scoreCandidate q f dbOrb =
        specFinalScore
          (calculate_similarity f.colorCorrel)
          (specShapeSim (specCircularitySim q.circularity f.circularity)
            (specAspectRatioSim q.aspectRatioVal f.aspectRatioVal))
          (calculate_lbp_similarity f.lbpExp)
          (if q.orb.isSome && decide (3 / 10 ≤ calculate_similarity f.colorCorrel)
           then calculate_orb_similarity q.orb dbOrb else 0))
    ∧ (∀ (query : QueryFeatures) (cands : List Candidate) (tk : Int)
        (fs fc : Option String) (c? : Option (Nat → Bool)),
      ∀ r ∈ (recognize_drug (some query) cands tk fs fc c?).results,
        ∃ c ∈ cands, r.record = c.record ∧
          ∃ f, c.feats = some f ∧
            r.similarity = scoreCandidate query f c.orbDesc) := by
  constructor
  · intro q f dbOrb
    rfl
  · intro query cands tk fs fc c? r hr
    obtain ⟨c, hcmem, hce⟩ := mem_recognize_scan hr
    obtain ⟨f, hf, hrec, hsim, -⟩ := scoreEntry_some hce
    exact ⟨c, filteredCandidates_subset hcmem, hrec, f, hf, hsim⟩

/--
Witness for C1: the returned entry `⟨rec3, 4/5⟩` of the concrete
scenario carries the per-candidate score of one of the input candidates.
-/
theorem C1_fused_score_formula_witness :
    ∃ c ∈ [cand1, cand2, cand3],
      (⟨rec3, 4 / 5⟩ : ResultEntry).record = c.record ∧
      ∃ f, c.feats = some f ∧
        (⟨rec3, 4 / 5⟩ : ResultEntry).similarity = scoreCandidate q1 f c.orbDesc :=
  C1_fused_score_formula.2 q1 [cand1, cand2, cand3] 5 none none none
    ⟨rec3, 4 / 5⟩ (by
      have h : (recognize_drug (some q1) [cand1, cand2, cand3] 5 none none
          none).results = [⟨rec3, 4 / 5⟩, ⟨rec1, 1 / 2⟩] := by
        norm_num [recognize_drug, filteredCandidates, pyTruthy, scanLoop,
          scoreEntry, scoreCandidate, calculate_similarity,
          calculate_lbp_similarity, calculate_orb_similarity, sortDesc,
          insertDesc, pySlice, max_def, min_def, abs,
          q1, cand1, cand2, cand3, rec1, rec2, rec3]
      rw [h]
      exact List.mem_cons_self _ _)

/-! ## Claim C3 -/

/--
Claim C3: no result returned by `recognize_drug` has a final score
strictly below 0.15 — a candidate scoring below the floor is skipped by
the `continue` of line 953-955 and never appended, so every member of
the returned list has similarity ≥ 0.15.
-/
theorem C3_quality_floor :
    ∀ (query : Option QueryFeatures) (cands : List Candidate) (tk : Int)
      (fs fc : Option String) (c? : Option (Nat → Bool)),
      ∀ r ∈ (recognize_drug query cands tk fs fc c?).results,
        (15 / 100 : ℚ) ≤ r.similarity := by
  intro query cands tk fs fc c? r hr
  cases query with
  | none => simp [recognize_drug] at hr
  | some q =>
    obtain ⟨c, -, hce⟩ := mem_recognize_scan hr
    obtain ⟨f, -, -, hsim, hge⟩ := scoreEntry_some hce
    rw [hsim]
    exact le_of_not_lt hge

/-- Witness for C3 at the concrete scenario's best result. -/
theorem C3_quality_floor_witness :
    (15 / 100 : ℚ) ≤ (⟨rec3, 4 / 5⟩ : ResultEntry).similarity :=
  C3_quality_floor (some q1) [cand1, cand2, cand3] 5 none none none
    ⟨rec3, 4 / 5⟩ (by
      have h : (recognize_drug (some q1) [cand1, cand2, cand3] 5 none none
          none).results = [⟨rec3, 4 / 5⟩, ⟨rec1, 1 / 2⟩] := by
        norm_num [recognize_drug, filteredCandidates, pyTruthy, scanLoop,
          scoreEntry, scoreCandidate, calculate_similarity,
          calculate_lbp_similarity, calculate_orb_similarity, sortDesc,
          insertDesc, pySlice, max_def, min_def, abs,
          q1, cand1, cand2, cand3, rec1, rec2, rec3]
      rw [h]
      exact List.mem_cons_self _ _)

/-! ## Claim C4 -/

theorem ranking_of_slice (tk : Int) (l : List ResultEntry) :
    (pySlice tk (sortDesc l)).Pairwise (fun a b => b.similarity ≤ a.similarity)
    ∧ (∀ v : ℚ, ∃ rest,
        l.filter (fun r => decide (r.similarity = v)) =
          (pySlice tk (sortDesc l)).filter (fun r => decide (r.similarity = v))
            ++ rest)
    ∧ (0 ≤ tk → (pySlice tk (sortDesc l)).length ≤ tk.toNat) := by
  refine ⟨List.Pairwise.sublist (pySlice_sublist _ _) (sortDesc_sorted _),
    fun v => ?_, fun htk => ?_⟩
  · obtain ⟨m, hm⟩ : ∃ m, pySlice tk (sortDesc l) = (sortDesc l).take m := by
      unfold pySlice
      split
      · exact ⟨_, rfl⟩
      · exact ⟨_, rfl⟩
    refine ⟨((sortDesc l).drop m).filter (fun r => decide (r.similarity = v)), ?_⟩
    rw [hm, ← List.filter_append, List.take_append_drop, filter_sortDesc]
  · unfold pySlice
    rw [if_pos htk, List.length_take]
    exact min_le_left _ _

/--
Claim C4: the list returned by `recognize_drug` is sorted in descending
order of final score (pairwise, so in particular no adjacent pair
increases); entries of equal score keep the stable input order — the
equal-score entries of the output form a prefix of the equal-score
entries of the collected (input-ordered) result list; and for a
nonnegative `top_k` the output is truncated to at most `top_k` entries
(the source default is `top_k = 5`).
-/
theorem C4_ranking :
    ∀ (q : QueryFeatures) (cands : List Candidate) (tk : Int)
      (fs fc : Option String) (c? : Option (Nat → Bool)),
      ((recognize_drug (some q) cands tk fs fc c?).results).Pairwise
          (fun a b => b.similarity ≤ a.similarity)
      ∧ (∀ v : ℚ, ∃ rest,
          ((scanLoop q c? (filteredCandidates q cands fs fc).length
              (filteredCandidates q cands fs fc) 1).results).filter
              (fun r => decide (r.similarity = v)) =
            ((recognize_drug (some q) cands tk fs fc c?).results).filter
              (fun r => decide (r.similarity = v)) ++ rest)
      ∧ (0 ≤ tk →
          ((recognize_drug (some q) cands tk fs fc c?).results).length
            ≤ tk.toNat) := by
  intro q cands tk fs fc c?
  rw [recognize_some_eq]
  split
  · rename_i hemp
    have hnil : filteredCandidates q cands fs fc = [] :=
      List.isEmpty_iff.mp hemp
    rw [hnil]
    exact ⟨by simp, fun v => ⟨[], by simp [scanLoop]⟩, fun _ => by simp⟩
  · exact ranking_of_slice tk _

/-- Witness for C4: the truncation bound at the concrete scenario. -/
theorem C4_ranking_witness :
    ((recognize_drug (some q1) [cand1, cand2, cand3] 1 none none
      none).results).length ≤ (1 : Int).toNat :=
  (C4_ranking q1 [cand1, cand2, cand3] 1 none none none).2.2 (by norm_num)

/-! ## Claim C5 -/

theorem matchFilters_shape {rec : DrugRecord} {s : String} {fc : Option String}
    (hs : s ≠ "") (h : _match_filters rec (some s) fc = true) :
    rec.shape = s := by
  by_cases he : rec.shape = s
  · exact he
  · simp [_match_filters, pyTruthy, hs, he] at h

theorem matchFilters_color {rec : DrugRecord} {fs : Option String}
    {col : String} (hc : col ≠ "")
    (h : _match_filters rec fs (some col) = true) :
    strContains rec.color col = true := by
  by_cases hsc : strContains rec.color col = true
  · exact hsc
  · simp [_match_filters, pyTruthy, hc, hsc] at h

/--
Claim C5: when a (truthy) `filter_shape` is supplied, every result
returned by `recognize_drug` has a stored shape label exactly equal to
`filter_shape`; when a (truthy) `filter_color` is supplied, every
result's stored color label contains `filter_color` as a substring.
(Records failing either test are removed by the prefilter of lines
836-846 before any scoring happens — the returned entries all descend
from candidates of the `_match_filters`-filtered list.)
-/
theorem C5_explicit_filters :
    (∀ (q : QueryFeatures) (cands : List Candidate) (tk : Int) (s : String)
        (fc : Option String) (c? : Option (Nat → Bool)), s ≠ "" →
      ∀ r ∈ (recognize_drug (some q) cands tk (some s) fc c?).results,
        r.record.shape = s)
    ∧ (∀ (q : QueryFeatures) (cands : List Candidate) (tk : Int)
        (fs : Option String) (col : String) (c? : Option (Nat → Bool)),
        col ≠ "" →
      ∀ r ∈ (recognize_drug (some q) cands tk fs (some col) c?).results,
        strContains r.record.color col = true) := by
  constructor
  · intro q cands tk s fc c? hs r hr
    obtain ⟨c, hcmem, hce⟩ := mem_recognize_scan hr
    obtain ⟨f, -, hrec, -, -⟩ := scoreEntry_some hce
    rw [hrec]
    have htr : pyTruthy (some s) = true := by simp [pyTruthy, hs]
    unfold filteredCandidates at hcmem
    rw [htr, Bool.true_or, if_pos rfl] at hcmem
    exact matchFilters_shape hs (List.mem_filter.mp hcmem).2
  · intro q cands tk fs col c? hc r hr
    obtain ⟨c, hcmem, hce⟩ := mem_recognize_scan hr
    obtain ⟨f, -, hrec, -, -⟩ := scoreEntry_some hce
    rw [hrec]
    have htr : pyTruthy (some col) = true := by simp [pyTruthy, hc]
    unfold filteredCandidates at hcmem
    rw [htr, Bool.or_true, if_pos rfl] at hcmem
    exact matchFilters_color hc (List.mem_filter.mp hcmem).2

/--
Witness for C5 at the concrete scenario: a result of the shape-filtered
run has shape exactly `"round"`, and a result of the color-filtered run
has a color label containing `"whi"`.
-/
theorem C5_explicit_filters_witness :
    (⟨rec3, 4 / 5⟩ : ResultEntry).record.shape = "round"
    ∧ strContains (⟨rec3, 4 / 5⟩ : ResultEntry).record.color "whi" = true := by
  constructor
  · refine C5_explicit_filters.1 q1 [cand1, cand2, cand3] 5 "round" none none
      (by decide) ⟨rec3, 4 / 5⟩ ?_
    have hf : filteredCandidates q1 [cand1, cand2, cand3] (some "round") none
        = [cand1, cand3] := by
      simp [filteredCandidates, pyTruthy, _match_filters, q1, cand1, cand2,
        cand3, rec1, rec2, rec3]
    have h : (recognize_drug (some q1) [cand1, cand2, cand3] 5 (some "round")
        none none).results = [⟨rec3, 4 / 5⟩, ⟨rec1, 1 / 2⟩] := by
      simp only [recognize_drug, hf]
      norm_num [scanLoop, scoreEntry, scoreCandidate, calculate_similarity,
        calculate_lbp_similarity, calculate_orb_similarity, sortDesc,
        insertDesc, pySlice, max_def, min_def, abs, q1, cand1, cand3, rec1, rec3]
    rw [h]
    exact List.mem_cons_self _ _
  · refine C5_explicit_filters.2 q1 [cand1, cand2, cand3] 5 none "whi" none
      (by decide) ⟨rec3, 4 / 5⟩ ?_
    have hf : filteredCandidates q1 [cand1, cand2, cand3] none (some "whi")
        = [cand1, cand3] := by
      simp [filteredCandidates, pyTruthy, _match_filters, strContains,
        charsContains, leadMatch, q1, cand1, cand2, cand3, rec1, rec2, rec3]
    have h : (recognize_drug (some q1) [cand1, cand2, cand3] 5 none
        (some "whi") none).results = [⟨rec3, 4 / 5⟩, ⟨rec1, 1 / 2⟩] := by
      simp only [recognize_drug, hf]
      norm_num [scanLoop, scoreEntry, scoreCandidate, calculate_similarity,
        calculate_lbp_similarity, calculate_orb_similarity, sortDesc,
        insertDesc, pySlice, max_def, min_def, abs, q1, cand1, cand3, rec1, rec3]
    rw [h]
    exact List.mem_cons_self _ _

/-! ## Claim C9 -/

/--
Counterexample for C9: when the query image fails to decode *and* a
shape filter was supplied, the caller surfaces the empty result as the
"no drug matches the filters" message (`ApiResponse.noMatch true`), not
as the "cannot recognize, ensure the image is clear" message
(`ApiResponse.noMatch false`) the claim describes.
-/
theorem C9_decode_failure_filter_message :
    (recognize_drug none [cand1] 5 (some "round") none none).results = []
    ∧ apiResponse (recognize_drug none [cand1] 5 (some "round") none
        none).results (some "round") none = ApiResponse.noMatch true
    ∧ ApiResponse.noMatch true ≠ ApiResponse.noMatch false := by
  refine ⟨rfl, ?_, by simp⟩
  simp [recognize_drug, apiResponse, pyTruthy]

/--
Claim C9 (amended): a failed decode of the query image makes
`recognize_drug` return the empty list — no hook fires, no candidate is
scored, no exception escapes (the embedding is a total function) — and
the caller surfaces the empty list as the cannot-recognize failure when
no filter was supplied, and as the no-candidates-matching-filters
failure when a (truthy) filter was supplied.
-/
theorem C9_decode_failure_empty :
    ∀ (cands : List Candidate) (tk : Int) (fs fc : Option String)
      (c? : Option (Nat → Bool)),
      recognize_drug none cands tk fs fc c? =
        { results := [], reports := [], processed := 0, cancelled := false }
      ∧ apiResponse (recognize_drug none cands tk fs fc c?).results fs fc =
          ApiResponse.noMatch (pyTruthy fs || pyTruthy fc) := by
  intro cands tk fs fc c?
  refine ⟨rfl, ?_⟩
  simp [recognize_drug, apiResponse]

/-! ## Claim C10 -/

/--
Claim C10: `recognize_drug` applies Python slice semantics to `top_k`:
with `top_k = 0` the returned list is empty; with negative `top_k` it
returns the sorted surviving results with the `|top_k|` lowest-ranked
entries dropped (`results[:top_k]`), not the `|top_k|` best and not the
empty list.
-/
theorem C10_python_slice :
    (∀ (query : Option QueryFeatures) (cands : List Candidate)
        (fs fc : Option String) (c? : Option (Nat → Bool)),
      (recognize_drug query cands 0 fs fc c?).results = [])
    ∧ (∀ (q : QueryFeatures) (cands : List Candidate) (tk : Int)
        (fs fc : Option String) (c? : Option (Nat → Bool)), tk < 0 →
      (recognize_drug (some q) cands tk fs fc c?).results =
        (sortDesc (scanLoop q c? (filteredCandidates q cands fs fc).length
            (filteredCandidates q cands fs fc) 1).results).take
          ((sortDesc (scanLoop q c? (filteredCandidates q cands fs fc).length
            (filteredCandidates q cands fs fc) 1).results).length
            - (-tk).toNat)) := by
  constructor
  · intro query cands fs fc c?
    cases query with
    | none => rfl
    | some q =>
      rw [recognize_some_eq]
      split
      · rfl
      · simp [pySlice]
  · intro q cands tk fs fc c? htk
    rw [recognize_some_eq]
    split
    · rename_i hemp
      have hnil : filteredCandidates q cands fs fc = [] :=
        List.isEmpty_iff.mp hemp
      rw [hnil]
      simp [scanLoop, sortDesc]
    · unfold pySlice
      rw [if_neg (not_le.mpr htk)]

/-! ## Claim C2 -/

/--
Claim C2 is violated by the code: with a query image producing 3 ORB
descriptors and a candidate image producing only 2, every query
descriptor passes the ratio test (Hamming distances 1 and 3, and
`1 < 0.75·3`), so `calculate_orb_similarity` returns
`good_matches / min(3, 2) = 3/2 > 1`, and the returned 'similarity'
field is `0.4·1 + 0.3·1 + 0.2·1 + 0.1·(3/2) = 21/20 > 1` — outside the
`[0, 1]` range promised by the docstrings of `calculate_orb_similarity`
("值域 0-1") and `recognize_drug` ("相似度分數 (0-1)").
-/
theorem C2_similarity_above_one :
    (recognize_drug (some q2) [candO] 5 none none none).results
      = [⟨rec4, 21 / 20⟩]
    ∧ (1 : ℚ) < 21 / 20 := by
  constructor
  · norm_num [recognize_drug, filteredCandidates, pyTruthy, scanLoop,
      scoreEntry, scoreCandidate, calculate_similarity,
      calculate_lbp_similarity, calculate_orb_similarity, knn2, sortNat,
      insertNat, hamming, ratioTestPass, sortDesc, insertDesc, pySlice,
      max_def, min_def, abs, q2, candO, rec4, List.countP_cons,
      List.countP_nil, List.count_cons, List.count_nil, List.zipWith]
  · norm_num

/-! ## Claim C6 -/

/--
Counterexample for C6: `extract_color_histogram` applies the *default*
`cv2.normalize`, which is L2 (Euclidean), not L1.  On the reachable raw
histogram `rawHistPair` (two occupied bins with counts 5400 and 7200,
Euclidean norm 9000), the normalized entries sum to `12600/9000 = 7/5`,
not 1 — far outside any reasonable ε.
-/
theorem C6_color_sum_ne_one :
    (extract_color_histogram rawHistPair).sum = 7 / 5
    ∧ ((7 : ℝ) / 5 ≠ 1) := by
  constructor
  · have hS : sumSq rawHistPair = 81000000 := by
      simp only [sumSq, rawHistPair, List.map_cons, List.map_replicate,
        List.sum_cons, List.sum_replicate]
      norm_num
    have hsqrt : Real.sqrt (sumSq rawHistPair) = 9000 := by
      rw [hS, show (81000000 : ℝ) = 9000 ^ 2 by norm_num,
        Real.sqrt_sq (by norm_num : (0 : ℝ) ≤ 9000)]
    unfold extract_color_histogram l2normalize
    rw [hsqrt, sum_map_div]
    simp only [rawHistPair, List.sum_cons, List.sum_replicate]
    norm_num
  · norm_num

/--
Claim C6 (amended): for every valid frame the texture histogram produced
by `extract_lbp_features` sums to 1 (the 126·126 interior codes always
give a positive total); the color histogram produced by
`extract_color_histogram` is L2-normalized — the sum of the *squares* of
its entries is 1 whenever the raw histogram is nonzero — and its plain
sum is in general not 1.
-/
theorem C6_normalization :
    (∀ v : List ℝ, (∃ x ∈ v, x ≠ 0) →
      sumSq (extract_color_histogram v) = 1)
    ∧ (∀ g : Nat → Nat → Nat,
      ∑ k ∈ Finset.range 256, extract_lbp_features g k = 1) := by
  constructor
  · intro v hv
    have hpos := sumSq_pos hv
    unfold extract_color_histogram l2normalize
    rw [sumSq_map_div, Real.sq_sqrt (le_of_lt hpos),
      div_self (ne_of_gt hpos)]
  · intro g
    have htot : (∑ j ∈ Finset.range 256, (lbpCount g j : ℚ)) = 15876 := by
      rw [← Nat.cast_sum, lbpCount_total g]
      norm_num
    calc ∑ k ∈ Finset.range 256, extract_lbp_features g k
        = ∑ k ∈ Finset.range 256, (lbpCount g k : ℚ) / 15876 := by
          refine Finset.sum_congr rfl fun k _ => ?_
          unfold extract_lbp_features
          rw [htot, if_pos (by norm_num)]
      _ = (∑ k ∈ Finset.range 256, (lbpCount g k : ℚ)) / 15876 :=
          (Finset.sum_div _ _ _).symm
      _ = 1 := by rw [htot]; norm_num

/--
Witness for C6 (amended): a concrete nonzero raw histogram whose
L2-normalization has unit sum of squares, and a concrete frame whose
texture histogram sums to 1.
-/
theorem C6_normalization_witness :
    sumSq (extract_color_histogram [3, 4]) = 1
    ∧ ∑ k ∈ Finset.range 256, extract_lbp_features (fun _ _ => 0) k = 1 :=
  ⟨C6_normalization.1 [3, 4] ⟨3, by simp, by norm_num⟩,
   C6_normalization.2 (fun _ _ => 0)⟩

/-! ## Claim C7 -/

/--
Counterexample for C7: with the three scenario candidates (the second
scores below the 0.15 floor, so it is skipped *without* a progress
report) and `top_k = 1`, cancelling after `N = 2` processed candidates
returns `[⟨rec1, 1/2⟩]` — not a subset of the uncancelled run's returned
list `[⟨rec3, 4/5⟩]` (truncation keeps different survivors) — and the
last `on_progress` report before the unconditional final
`(total, total)` report carries `done = 1`, not `N = 2`.
-/
theorem C7_cancel_claim_fails :
    ((recognize_drug (some q1) [cand1, cand2, cand3] 1 none none
        (some (cancelAfter 2))).results = [⟨rec1, 1 / 2⟩])
    ∧ ((recognize_drug (some q1) [cand1, cand2, cand3] 1 none none
        none).results = [⟨rec3, 4 / 5⟩])
    ∧ ((⟨rec1, 1 / 2⟩ : ResultEntry) ∉
        (recognize_drug (some q1) [cand1, cand2, cand3] 1 none none
          none).results)
    ∧ ((recognize_drug (some q1) [cand1, cand2, cand3] 1 none none
        (some (cancelAfter 2))).reports = [(0, 3), (1, 3), (3, 3)]) := by
  have hA : recognize_drug (some q1) [cand1, cand2, cand3] 1 none none
      (some (cancelAfter 2)) =
      { results := [⟨rec1, 1 / 2⟩], reports := [(0, 3), (1, 3), (3, 3)],
        processed := 2, cancelled := true } := by
    norm_num [recognize_drug, filteredCandidates, pyTruthy, scanLoop,
      scoreEntry, scoreCandidate, calculate_similarity,
      calculate_lbp_similarity, calculate_orb_similarity, sortDesc,
      insertDesc, pySlice, cancelAfter, max_def, min_def, abs,
      q1, cand1, cand2, cand3, rec1, rec2, rec3]
  have hB : (recognize_drug (some q1) [cand1, cand2, cand3] 1 none none
      none).results = [⟨rec3, 4 / 5⟩] := by
    norm_num [recognize_drug, filteredCandidates, pyTruthy, scanLoop,
      scoreEntry, scoreCandidate, calculate_similarity,
      calculate_lbp_similarity, calculate_orb_similarity, sortDesc,
      insertDesc, pySlice, max_def, min_def, abs,
      q1, cand1, cand2, cand3, rec1, rec2, rec3]
  refine ⟨by rw [hA], hB, ?_, by rw [hA]⟩
  rw [hB]
  norm_num [rec1, rec3]

/--
Claim C7 (amended): when the `is_cancelled` hook first returns true
after `N` candidates have been processed (`N < total`), the scan loop
stops before scoring any further candidate (the final loop counter is
`N` and the collected results are exactly those of the first `N`
candidates, sorted and sliced), every returned entry also occurs in the
uncancelled run's *pre-truncation* surviving list, the run ends
cancelled and the endpoint records status `Canceled` rather than an
error, and the in-loop progress reports are exactly one `(idx, total)`
per *appended* candidate among the first `N` (candidates skipped for
missing features or the 0.15 floor emit none), bracketed by the initial
`(0, total)` and the unconditional final `(total, total)` report.
-/
theorem C7_cancellation :
    ∀ (q : QueryFeatures) (cands : List Candidate) (tk : Int)
      (fs fc : Option String) (N : Nat),
      N < (filteredCandidates q cands fs fc).length →
      ((recognize_drug (some q) cands tk fs fc
          (some (cancelAfter N))).processed = N)
      ∧ ((recognize_drug (some q) cands tk fs fc
          (some (cancelAfter N))).cancelled = true)
      ∧ (appStatus (some (cancelAfter N))
          (recognize_drug (some q) cands tk fs fc (some (cancelAfter N)))
          = Status.canceled)
      ∧ ((recognize_drug (some q) cands tk fs fc
          (some (cancelAfter N))).results =
        pySlice tk (sortDesc
          (((filteredCandidates q cands fs fc).take N).filterMap
            (scoreEntry q))))
      ∧ (∀ r ∈ (recognize_drug (some q) cands tk fs fc
          (some (cancelAfter N))).results,
        r ∈ (filteredCandidates q cands fs fc).filterMap (scoreEntry q))
      ∧ ((recognize_drug (some q) cands tk fs fc
          (some (cancelAfter N))).reports =
        (0, (filteredCandidates q cands fs fc).length) ::
          (appendedIdxs q ((filteredCandidates q cands fs fc).take N) 1).map
            (fun i => (i, (filteredCandidates q cands fs fc).length))
          ++ [((filteredCandidates q cands fs fc).length,
               (filteredCandidates q cands fs fc).length)]) := by
  intro q cands tk fs fc N hN
  have hne : (filteredCandidates q cands fs fc).isEmpty = false := by
    rcases h : filteredCandidates q cands fs fc with _ | ⟨c, l⟩
    · rw [h] at hN; simp at hN
    · rfl
  have hscan := scanLoop_cancelAfter q
    (filteredCandidates q cands fs fc).length N
    (filteredCandidates q cands fs fc) 1 (le_refl 1) (by omega)
  rw [Nat.add_sub_cancel] at hscan
  rw [if_neg (by omega)] at hscan
  rw [recognize_some_eq, if_neg (by simp [hne])]
  rw [hscan]
  refine ⟨rfl, rfl, ?_, ?_, ?_, ?_⟩
  · simp [appStatus, cancelAfter]
  · rw [scanLoop_results_none]
  · intro r hr
    have h1 := mem_pySlice hr
    have h2 := (sortDesc_perm _).mem_iff.mp h1
    rw [scanLoop_results_none] at h2
    exact mem_filterMap_take h2
  · rw [scanLoop_reports_none]

/--
Witness for C7 (amended): in the concrete scenario, cancelling after 2
processed candidates leaves the loop counter at 2.
-/
theorem C7_cancellation_witness :
    (recognize_drug (some q1) [cand1, cand2, cand3] 1 none none
      (some (cancelAfter 2))).processed = 2 :=
  (C7_cancellation q1 [cand1, cand2, cand3] 1 none none 2
    (by norm_num [filteredCandidates, pyTruthy, q1])).1

/-! ## Claim C8 -/

/--
Counterexample for C8: terminal statuses are not sticky in `app.py`.
After a request finishes with status `done`, a later `/api/cancel` call
(the no-flag branch of lines 506-515) overwrites the entry with status
`canceled`; and after a mid-scan cancel sets the status to `canceled`, a
progress callback from the still-running scan resets it to `running`.
-/
theorem C8_terminal_status_changes :
    statusOf (runOps ⟨none, none⟩ [ReqOp.start, ReqOp.finish])
      = some Status.done
    ∧ statusOf (runOps ⟨none, none⟩ [ReqOp.start, ReqOp.finish, ReqOp.cancel])
        = some Status.canceled
    ∧ statusOf (runOps ⟨none, none⟩ [ReqOp.start, ReqOp.cancel])
        = some Status.canceled
    ∧ statusOf (runOps ⟨none, none⟩
        [ReqOp.start, ReqOp.cancel, ReqOp.progressCb 5 10])
        = some Status.running
    ∧ Status.done ≠ Status.canceled
    ∧ Status.canceled ≠ Status.running := by
  refine ⟨?_, ?_, ?_, ?_, by decide, by decide⟩ <;>
    norm_num [runOps, reqStep, statusOf]

/--
Claim C8 (amended): once a request's status is `canceled`, later cancel
calls never change it; once it is `done`, a later cancel call changes it
(only) to `canceled`, where it then stays; and a progress callback —
which can only arrive while the scan is still running — always resets
the status to `running`.  Terminal statuses are thus stable exactly
against the cancel calls, the only operations that reach a request id
after its endpoint has finished.
-/
theorem C8_terminal_status :
    ∀ (s : ReqState) (ops : List ReqOp), (∀ op ∈ ops, op = ReqOp.cancel) →
      ((statusOf s = some Status.canceled →
        statusOf (runOps s ops) = some Status.canceled)
      ∧ (statusOf s = some Status.done → ops ≠ [] →
        statusOf (runOps s ops) = some Status.canceled)
      ∧ (∀ d t, statusOf (reqStep s (ReqOp.progressCb d t))
          = some Status.running)) := by
  intro s ops hall
  refine ⟨fun hs => runOps_all_cancel ops s hall hs, ?_, ?_⟩
  · intro hs hne
    cases ops with
    | nil => exact absurd rfl hne
    | cons op rest =>
      have hop : op = ReqOp.cancel := hall op (List.mem_cons_self op rest)
      subst hop
      exact runOps_all_cancel rest (reqStep s .cancel)
        (fun o ho => hall o (List.mem_cons_of_mem _ ho))
        (reqStep_cancel_status s)
  · intro d t
    simp [reqStep, statusOf]

/--
Witness for C8 (amended): a single later cancel call on a finished
request with status `done` yields status `canceled`.
-/
theorem C8_terminal_status_witness :
    statusOf (runOps ⟨some ⟨3, 5, Status.done⟩, none⟩ [ReqOp.cancel])
      = some Status.canceled :=
  (C8_terminal_status ⟨some ⟨3, 5, Status.done⟩, none⟩ [ReqOp.cancel]
    (by simp)).2.1 rfl (by simp)

/-- Witness for C10 at the concrete scenario with `top_k = -1`. -/
theorem C10_python_slice_witness :
    (recognize_drug (some q1) [cand1, cand2, cand3] (-1) none none
        none).results =
      (sortDesc (scanLoop q1 none
          (filteredCandidates q1 [cand1, cand2, cand3] none none).length
          (filteredCandidates q1 [cand1, cand2, cand3] none none) 1).results).take
        ((sortDesc (scanLoop q1 none
          (filteredCandidates q1 [cand1, cand2, cand3] none none).length
          (filteredCandidates q1 [cand1, cand2, cand3] none none) 1).results).length
          - (-(-1 : Int)).toNat) :=
  C10_python_slice.2 q1 [cand1, cand2, cand3] (-1) none none none (by norm_num)

end MUSRec
